import Mathlib

/-!
Shallow embedding of the neurodriver axon-hillock component code:
`BaseAxonHillockModel.py` (constructor, `pre_run`, `run_step`) and
`Wilson.py` (class attributes, the `update` CUDA kernel, `run_step`).

The kernel body uses only field operations and order comparisons, so the
scalar type is `ℚ`; the properties verified here are structural (write
discipline, mirroring of buffers, spike collapsing, ordering of phases)
and do not depend on floating-point rounding.
-/

namespace NeuroDriver

/-- Python `int(q)` for a rational: truncation toward zero. -/
def pyInt (q : ℚ) : ℤ := if 0 ≤ q then ⌊q⌋ else ⌈q⌉

/-- `np.int32` conversion of a Python integer: wrap into `[-2^31, 2^31)`. -/
def int32wrap (n : ℤ) : ℤ := (n + 2 ^ 31) % 2 ^ 32 - 2 ^ 31

namespace BaseAxonHillockModel

/-- `self.ddt = np.double(1e-6)` (BaseAxonHillockModel.__init__, line 36): the
fixed inner sub-step size hardcoded by the base class. -/
def ddt : ℚ := 1e-6

/-- `self.steps = np.int32(max(int(self.dt/self.ddt), 1))`
(BaseAxonHillockModel.__init__, line 37). -/
def steps (dt : ℚ) : ℤ := int32wrap (max (pyInt (dt / ddt)) 1)

end BaseAxonHillockModel

namespace Wilson

/-- `max_dt = 1e-5` (Wilson.py, line 23): the model's declared maximum stable
step.  It is declared but never read anywhere else in the code. -/
def max_dt : ℚ := 1e-5

/-- `accesses = ['I']` (Wilson.py). -/
def accesses : List String := ["I"]

end Wilson

/-- Sub-step count the spec's words prescribe: `max(1, floor(dt /
modelMaxStableStep))` where `modelMaxStableStep` is the model's own declared
maximum stable step.  Stated from the spec for comparison with
`BaseAxonHillockModel.steps`. -/
def stepsPerSpec (dt modelMaxStableStep : ℚ) : ℤ :=
  max 1 ⌊dt / modelMaxStableStep⌋

/-! ## The Wilson `update` kernel

Per-component register state of the kernel body: locals `V`, `R`, `Vprev1`,
`Vprev2` and the spike accumulator `spike` (an integer counter in the
source, zero-initialised before the loop). -/

structure WilsonLocals where
  V : ℚ
  R : ℚ
  Vprev1 : ℚ
  Vprev2 : ℚ
  spike : ℕ
deriving Repr, DecidableEq

/-- `dV = 1./0.8*(I - 1.0*(17.81+0.4771*V+0.003263*V*V)*(V-55.) - 26.*R*(V+92.))`
(kernel inner loop). -/
def wilsonDV (I : ℚ) (s : WilsonLocals) : ℚ :=
  1 / 0.8 * (I - 1.0 * (17.81 + 0.4771 * s.V + 0.003263 * s.V * s.V) * (s.V - 55)
    - 26 * s.R * (s.V + 92))

/-- `R_infty = 0.0135*V+1.03; dR = R_infty/1.9 - R/1.9` (kernel inner loop). -/
def wilsonDR (s : WilsonLocals) : ℚ :=
  (0.0135 * s.V + 1.03) / 1.9 - s.R / 1.9

/-- The value of the local `V` after one Euler sub-step: `V += dt * dV`. -/
def wilsonVnext (dt I : ℚ) (s : WilsonLocals) : ℚ := s.V + dt * wilsonDV I s

/-- The spike-detection test of one sub-step:
`(Vprev2<=Vprev1) && (Vprev1 >= V) && (Vprev1 > 20.)`, evaluated after the
Euler update of `V` (so `V` is `wilsonVnext`). -/
def spikeCond (dt I : ℚ) (s : WilsonLocals) : Prop :=
  s.Vprev2 ≤ s.Vprev1 ∧ wilsonVnext dt I s ≤ s.Vprev1 ∧ (20 : ℚ) < s.Vprev1

instance (dt I : ℚ) (s : WilsonLocals) : Decidable (spikeCond dt I s) := by
  unfold spikeCond; infer_instance

/-- One iteration of the kernel's inner loop (`for (int j = 0; j < nsteps; ++j)`):
Euler-update `V` and `R`, accumulate the spike test, shift the history
(`Vprev2 = Vprev1; Vprev1 = V`). -/
def wilsonSub (dt I : ℚ) (s : WilsonLocals) : WilsonLocals :=
  { V := wilsonVnext dt I s
    R := s.R + dt * wilsonDR s
    Vprev1 := wilsonVnext dt I s
    Vprev2 := s.Vprev1
    spike := s.spike + if spikeCond dt I s then 1 else 0 }

/-- `nsteps` iterations of the kernel's inner loop. -/
def wilsonIter (dt I : ℚ) (n : ℕ) (s : WilsonLocals) : WilsonLocals :=
  (wilsonSub dt I)^[n] s

/-- The global arrays passed to the kernel: `g_I`, the four per-component
state arrays, and the two output (update-pointer) arrays. -/
structure WilsonBufs where
  I : ℕ → ℚ
  R : ℕ → ℚ
  internalV : ℕ → ℚ
  internalVprev1 : ℕ → ℚ
  internalVprev2 : ℕ → ℚ
  spike_state : ℕ → ℤ
  V : ℕ → ℚ

/-- The register loads at the top of the kernel's per-component loop:
`I = g_I[i]; V = g_internalV[i]; Vprev1 = g_internalVprev1[i];
Vprev2 = g_internalVprev2[i]; R = g_R[i]; spike = 0`. -/
def loadLocals (b : WilsonBufs) (i : ℕ) : WilsonLocals :=
  { V := b.internalV i
    R := b.R i
    Vprev1 := b.internalVprev1 i
    Vprev2 := b.internalVprev2 i
    spike := 0 }

/-- The whole `update` kernel as a function on the global buffers: each
component `i < num_comps` runs `nsteps` inner iterations on its registers and
then stores `g_V[i] = V; g_R[i] = R; g_internalV[i] = V;
g_internalVprev1[i] = Vprev1; g_internalVprev2[i] = Vprev2;
g_spike_state[i] = (spike > 0)`. -/
def wilsonUpdate (num : ℕ) (dt : ℚ) (nsteps : ℕ) (b : WilsonBufs) : WilsonBufs :=
  let fin : ℕ → WilsonLocals := fun i => wilsonIter dt (b.I i) nsteps (loadLocals b i)
  { I := b.I
    R := fun i => if i < num then (fin i).R else b.R i
    internalV := fun i => if i < num then (fin i).V else b.internalV i
    internalVprev1 := fun i => if i < num then (fin i).Vprev1 else b.internalVprev1 i
    internalVprev2 := fun i => if i < num then (fin i).Vprev2 else b.internalVprev2 i
    spike_state := fun i => if i < num then (if 0 < (fin i).spike then 1 else 0)
                            else b.spike_state i
    V := fun i => if i < num then (fin i).V else b.V i }

/-! ## Constructor parameter handling (`BaseAxonHillockModel.__init__`)

A numpy parameter array is modelled by its element list; its `size` is the
length.  The parameter dict is an association list; a missing key raises a
Python `KeyError`. -/

structure PArray where
  data : List ℚ
deriving Repr, DecidableEq

/-- `a.size` of a numpy array. -/
def PArray.size (a : PArray) : ℕ := a.data.length

/-- Python exception raised by the constructor. -/
inductive PyErr where
  | keyError (k : String)
deriving Repr, DecidableEq

/-- `k in params_dict` / `params_dict.get(k)`: dictionary lookup. -/
def dictGet (pd : List (String × PArray)) (k : String) : Option PArray :=
  (pd.find? (fun p => p.1 = k)).map Prod.snd

/-- `params_dict[k]`: dictionary lookup, raising `KeyError` when absent. -/
def plookup (pd : List (String × PArray)) (k : String) : Except PyErr PArray :=
  match dictGet pd k with
  | some a => .ok a
  | none => .error (.keyError k)

/-- The lookups of line 49, `{k: self.params_dict[k].dtype for k in self.params}`:
every declared parameter is looked up in `params_dict` in declaration order. -/
def lookAll (pd : List (String × PArray)) : List String → Except PyErr Unit
  | [] => .ok ()
  | k :: ks =>
      match plookup pd k with
      | .error e => .error e
      | .ok _ => lookAll pd ks

/-- The part of the constructor state the claims are about. -/
structure InitState where
  num_comps : ℕ
  dt : ℚ
  steps : ℤ
deriving Repr, DecidableEq

/-- `BaseAxonHillockModel.__init__` restricted to its parameter handling:
`self.num_comps = params_dict[self.params[0]].size` (line 27), the dtype
lookups of every declared parameter (line 49), and
`self.steps = np.int32(max(int(self.dt/self.ddt), 1))` (lines 35-37).
No shape or size validation is performed anywhere in the constructor. -/
def baseInit (params : List String) (pd : List (String × PArray)) (dt : ℚ) :
    Except PyErr InitState :=
  match params.head? with
  | none => .error (.keyError "0")
  | some k0 =>
      match plookup pd k0 with
      | .error e => .error e
      | .ok a0 =>
          match lookAll pd params with
          | .error e => .error e
          | .ok _ => .ok ⟨a0.size, dt, BaseAxonHillockModel.steps dt⟩

/-! ## `pre_run` (BaseAxonHillockModel, lines 54-61) -/

/-- The buffers `pre_run` can touch: the published output buffers
(`update_pointers['V']` and the spike pointer) and the internal persistent
state (`internal_states['internalV']` and the remaining entries). -/
structure ModelBufs where
  V_out : PArray
  spike_out : List ℤ
  internalV : PArray
  otherStates : List (String × PArray)
deriving Repr, DecidableEq

/-- `BaseAxonHillockModel.pre_run`: if `'initV' in self.params_dict`, copy
`initV` into the published `V` output buffer and into
`internal_states['internalV']`; otherwise do nothing. -/
def pre_run (pd : List (String × PArray)) (m : ModelBufs) : ModelBufs :=
  match dictGet pd "initV" with
  | some a => { m with V_out := a, internalV := a }
  | none => m

/-! ## `Wilson.run_step` (Wilson.py, lines 97-107)

`run_step` first sums each accessed input variable into the component's
input buffer and then launches the `update` kernel with arguments
`(num_comps, 1000.*dt, steps, I, R, V, Vprev1, Vprev2, spike_state, V)`. -/

/-- Modelled from the spec: `NDComponent.sum_in_variable` (the class
`NDComponent` is not under `src/`).  Per the spec, multiple incoming
connections to one input port are reduced by summation into the
component's input buffer. -/
def sum_in_variable (incoming : List ℚ) : ℚ := incoming.sum

/-- The argument tuple of the `prepared_async_call` kernel launch in
`Wilson.run_step`. -/
structure KernelCall where
  num : ℕ
  dt : ℚ
  nsteps : ℤ
  bufs : WilsonBufs

namespace Wilson

/-- `Wilson.run_step` up to the kernel launch: sum the incoming values of
each accessed variable into the input buffer, then build the launch
arguments `(self.num_comps, 1000.*self.dt, self.steps, ...)`. -/
def runStepCall (dt : ℚ) (num : ℕ) (incoming : ℕ → List ℚ) (b : WilsonBufs) :
    KernelCall :=
  { num := num
    dt := 1000 * dt
    nsteps := BaseAxonHillockModel.steps dt
    bufs := { b with I := fun i => sum_in_variable (incoming i) } }

end Wilson

/-- Execute a kernel launch: apply the `update` kernel to the buffers with
the launched arguments (a negative `nsteps` runs zero loop iterations). -/
def applyKernelCall (c : KernelCall) : WilsonBufs :=
  wilsonUpdate c.num c.dt c.nsteps.toNat c.bufs

/-- `Wilson.run_step` as a function on buffers: reduction then launch. -/
def Wilson.run_step (dt : ℚ) (num : ℕ) (incoming : ℕ → List ℚ)
    (b : WilsonBufs) : WilsonBufs :=
  applyKernelCall (Wilson.runStepCall dt num incoming b)

/-! ## Program-order models

`run_step`'s operations in program order, and the kernel's global-memory
write events for one component, used to state ordering and write-once
properties. -/

/-- The operations of `run_step` in program order. -/
inductive StepOp where
  | sumInVariable (k : String)
  | kernelLaunch
deriving Repr, DecidableEq

/-- `Wilson.run_step`'s operation sequence: one `sum_in_variable` per entry
of `self.inputs` (the accessed variables), then the kernel launch. -/
def Wilson.runStepOps : List StepOp :=
  Wilson.accesses.map StepOp.sumInVariable ++ [StepOp.kernelLaunch]

/-- Names of the global arrays the kernel receives. -/
inductive GBuf where
  | g_I
  | g_R
  | g_internalV
  | g_internalVprev1
  | g_internalVprev2
  | g_spike_state
  | g_V
deriving Repr, DecidableEq

/-- A global-memory write event: target array, index, value written
(`g_spike_state` stores 0 or 1). -/
structure WriteEv where
  buf : GBuf
  idx : ℕ
  val : ℚ
deriving Repr, DecidableEq

/-- The kernel's inner loop together with the global writes it issues: the
loop mutates only registers, so each iteration contributes no events. -/
def wilsonLoopTrace (dt I : ℚ) : ℕ → WilsonLocals → WilsonLocals × List WriteEv
  | 0, s => (s, [])
  | n + 1, s =>
      let r := wilsonLoopTrace dt I n (wilsonSub dt I s)
      (r.1, [] ++ r.2)

/-- The ordered global-memory writes the kernel issues for component `i`:
the loop's writes (none) followed by the epilogue stores, in source order
`g_V, g_R, g_internalV, g_internalVprev1, g_internalVprev2, g_spike_state`. -/
def wilsonCompWrites (dt I : ℚ) (nsteps : ℕ) (s : WilsonLocals) (i : ℕ) :
    List WriteEv :=
  let r := wilsonLoopTrace dt I nsteps s
  r.2 ++
    [⟨.g_V, i, r.1.V⟩, ⟨.g_R, i, r.1.R⟩, ⟨.g_internalV, i, r.1.V⟩,
     ⟨.g_internalVprev1, i, r.1.Vprev1⟩, ⟨.g_internalVprev2, i, r.1.Vprev2⟩,
     ⟨.g_spike_state, i, if 0 < r.1.spike then 1 else 0⟩]

/-- All-zero global buffers, used as a concrete instantiation. -/
def zeroBufs : WilsonBufs :=
  { I := fun _ => 0
    R := fun _ => 0
    internalV := fun _ => 0
    internalVprev1 := fun _ => 0
    internalVprev2 := fun _ => 0
    spike_state := fun _ => 0
    V := fun _ => 0 }

/-- `Wilson.run_step` in an exception-passing form: the result of the input
reduction and the kernel launch may each fail, and the body contains no
handler (`run_step` has no `try`/`except`), so failures pass through. -/
def Wilson.runStepExc (red : Except String (ℕ → ℚ))
    (launch : KernelCall → Except String WilsonBufs)
    (dt : ℚ) (num : ℕ) (b : WilsonBufs) : Except String WilsonBufs := do
  let ib ← red
  launch ⟨num, 1000 * dt, BaseAxonHillockModel.steps dt, { b with I := ib }⟩

/-- A parameter dict whose two arrays have mismatched shapes (sizes 2, 3). -/
def pdMismatch : List (String × PArray) :=
  [("a", ⟨[0, 0]⟩), ("b", ⟨[0, 0, 0]⟩)]

/-- A parameter dict holding an `initV` entry. -/
def pdInit : List (String × PArray) := [("initV", ⟨[1, 2]⟩)]

/-- Concrete model buffers for instantiations. -/
def mBufs0 : ModelBufs := ⟨⟨[0, 0]⟩, [0, 0], ⟨[0, 0]⟩, []⟩

example : (wilsonIter 1 0 1 ⟨0, 0, 0, 0, 0⟩).Vprev2 = 0 := by
  simp [wilsonIter, wilsonSub]
example : BaseAxonHillockModel.steps (1 / 10000) = 100 := by
  norm_num [BaseAxonHillockModel.steps, BaseAxonHillockModel.ddt, pyInt, int32wrap]
example : stepsPerSpec (1 / 10000) Wilson.max_dt = 10 := by
  norm_num [stepsPerSpec, Wilson.max_dt]

/-! ## Theorems -/

/-- Claim C1, counterexample: at `dt = 1e-4` the constructor computes
`steps = 100` (it divides by the hardcoded `ddt = 1e-6`), while the claimed
formula `max(1, floor(dt / modelMaxStableStep))` with Wilson's declared
`max_dt = 1e-5` gives `10`; the two disagree. -/
theorem base_steps_ignores_max_dt_cex :
    BaseAxonHillockModel.steps (1 / 10000) = 100 ∧
    stepsPerSpec (1 / 10000) Wilson.max_dt = 10 ∧
    BaseAxonHillockModel.steps (1 / 10000) ≠ stepsPerSpec (1 / 10000) Wilson.max_dt := by
  refine ⟨?_, ?_, ?_⟩ <;>
    norm_num [BaseAxonHillockModel.steps, BaseAxonHillockModel.ddt, pyInt,
      int32wrap, stepsPerSpec, Wilson.max_dt]

/-- Claim C1, amended: for every `dt > 0` (with the quotient inside the
`int32` range), the constructor computes the inner sub-step count as
`max(1, floor(dt / ddt))` with the fixed base-class sub-step `ddt = 1e-6`;
the model's declared maximum stable step is not consulted. -/
theorem base_steps_formula (dt : ℚ) (h1 : 0 < dt)
    (h2 : ⌊dt / BaseAxonHillockModel.ddt⌋ < 2 ^ 31) :
    BaseAxonHillockModel.steps dt = max 1 ⌊dt / BaseAxonHillockModel.ddt⌋ := by
  have hddt : (0 : ℚ) < BaseAxonHillockModel.ddt := by
    norm_num [BaseAxonHillockModel.ddt]
  have hq : (0 : ℚ) ≤ dt / BaseAxonHillockModel.ddt := le_of_lt (div_pos h1 hddt)
  have hpy : pyInt (dt / BaseAxonHillockModel.ddt) = ⌊dt / BaseAxonHillockModel.ddt⌋ := by
    simp [pyInt, hq]
  have hmax : max (pyInt (dt / BaseAxonHillockModel.ddt)) 1
      = max 1 ⌊dt / BaseAxonHillockModel.ddt⌋ := by
    rw [hpy, max_comm]
  have hrange : (0 : ℤ) ≤ max 1 ⌊dt / BaseAxonHillockModel.ddt⌋ + 2 ^ 31 := by
    have : (1 : ℤ) ≤ max 1 ⌊dt / BaseAxonHillockModel.ddt⌋ := le_max_left _ _
    omega
  have hlt : max 1 ⌊dt / BaseAxonHillockModel.ddt⌋ + 2 ^ 31 < 2 ^ 32 := by
    have : max 1 ⌊dt / BaseAxonHillockModel.ddt⌋ < 2 ^ 31 := by
      have h1' : (1 : ℤ) < 2 ^ 31 := by norm_num
      exact max_lt h1' h2
    omega
  rw [BaseAxonHillockModel.steps, hmax, int32wrap, Int.emod_eq_of_lt hrange hlt]
  omega

/-- Claim C1 amended, witness at `dt = 1e-4`: the hypotheses hold and the
constructor's sub-step count is `max(1, floor(1e-4 / 1e-6)) = 100`. -/
theorem base_steps_formula_witness :
    (0 : ℚ) < 1 / 10000 ∧ ⌊(1 / 10000 : ℚ) / BaseAxonHillockModel.ddt⌋ < 2 ^ 31 ∧
    BaseAxonHillockModel.steps (1 / 10000) = max 1 ⌊(1 / 10000 : ℚ) / BaseAxonHillockModel.ddt⌋ :=
  ⟨by norm_num, by norm_num [BaseAxonHillockModel.ddt],
   base_steps_formula (1 / 10000) (by norm_num) (by norm_num [BaseAxonHillockModel.ddt])⟩

/-- Claim C2: at the demo timestep `dt = 1e-4`, `Wilson.run_step` hands the
kernel `1000*dt` (the full round timestep converted to the kernel's
millisecond units) as the per-sub-step `dt`, together with `steps = 100`
sub-steps; the per-sub-step time in seconds is therefore `dt = 1e-4`, which
exceeds the declared `max_dt = 1e-5`, and the handed value is not the
stable sub-step size `1000*ddt` that the sub-step count was derived from. -/
theorem wilson_kernel_dt_is_full_round_step :
    (Wilson.runStepCall (1 / 10000) 1 (fun _ => []) zeroBufs).dt = 1000 * (1 / 10000) ∧
    (Wilson.runStepCall (1 / 10000) 1 (fun _ => []) zeroBufs).nsteps = 100 ∧
    (Wilson.runStepCall (1 / 10000) 1 (fun _ => []) zeroBufs).dt / 1000 > Wilson.max_dt ∧
    (Wilson.runStepCall (1 / 10000) 1 (fun _ => []) zeroBufs).dt
      ≠ 1000 * BaseAxonHillockModel.ddt := by
  refine ⟨rfl, ?_, ?_, ?_⟩ <;>
    norm_num [Wilson.runStepCall, BaseAxonHillockModel.steps,
      BaseAxonHillockModel.ddt, pyInt, int32wrap, Wilson.max_dt]

/-- Claim C6: `run_step` is a deterministic function of (state, inputs, dt):
two calls on identical buffers, inputs and timestep publish identical
outputs and persistent state; no random source is consulted. -/
theorem wilson_step_deterministic (dt : ℚ) (num : ℕ) (incoming : ℕ → List ℚ)
    (b1 b2 : WilsonBufs) (h : b1 = b2) :
    Wilson.run_step dt num incoming b1 = Wilson.run_step dt num incoming b2 := by
  rw [h]

/-- Claim C6, witness: two identical concrete calls agree. -/
theorem wilson_step_deterministic_witness :
    Wilson.run_step 1 1 (fun _ => []) zeroBufs
      = Wilson.run_step 1 1 (fun _ => []) zeroBufs :=
  wilson_step_deterministic 1 1 (fun _ => []) zeroBufs zeroBufs rfl

/-- Claim C8: `run_step` contains no local exception handler: a failure of
the input reduction propagates unchanged, and so does a failure of the
state-update launch. -/
theorem run_step_no_local_handler (red : Except String (ℕ → ℚ))
    (launch : KernelCall → Except String WilsonBufs)
    (dt : ℚ) (num : ℕ) (b : WilsonBufs) :
    (∀ e, red = .error e → Wilson.runStepExc red launch dt num b = .error e) ∧
    (∀ ib e, red = .ok ib →
      launch ⟨num, 1000 * dt, BaseAxonHillockModel.steps dt, { b with I := ib }⟩
        = .error e →
      Wilson.runStepExc red launch dt num b = .error e) := by
  constructor
  · intro e he
    rw [Wilson.runStepExc, he]
    rfl
  · intro ib e hib hl
    rw [Wilson.runStepExc, hib]
    simpa using hl

/-- Claim C8, witness: a concrete reduction failure surfaces unchanged. -/
theorem run_step_no_local_handler_witness :
    Wilson.runStepExc (.error "fault") (fun _ => .ok zeroBufs) 1 1 zeroBufs
      = .error "fault" :=
  (run_step_no_local_handler (.error "fault") (fun _ => .ok zeroBufs)
    1 1 zeroBufs).1 "fault" rfl

/-- The kernel's inner loop issues no global writes: its trace is the pure
register iteration paired with an empty event list. -/
lemma wilsonLoopTrace_eq (dt I : ℚ) :
    ∀ (n : ℕ) (s : WilsonLocals),
      wilsonLoopTrace dt I n s = (wilsonIter dt I n s, []) := by
  intro n
  induction n with
  | zero => intro s; simp [wilsonLoopTrace, wilsonIter]
  | succ n ih =>
      intro s
      simp [wilsonLoopTrace, ih, wilsonIter, Function.iterate_succ_apply]

/-- Claim C3: for each component, the kernel's global-write trace is exactly
the six epilogue stores carrying the post-loop register values: `g_V` and
`g_spike_state` are each written exactly once, only after all `nsteps`
inner sub-steps have completed (never with an intermediate sub-step value),
every write targets the component's own index on its own state or output
arrays (never the input array `g_I`), and the kernel leaves `g_I`
unchanged. -/
theorem wilson_kernel_single_publish (dt I : ℚ) (n : ℕ) (s : WilsonLocals)
    (i num : ℕ) (b : WilsonBufs) :
    wilsonCompWrites dt I n s i =
      [⟨.g_V, i, (wilsonIter dt I n s).V⟩, ⟨.g_R, i, (wilsonIter dt I n s).R⟩,
       ⟨.g_internalV, i, (wilsonIter dt I n s).V⟩,
       ⟨.g_internalVprev1, i, (wilsonIter dt I n s).Vprev1⟩,
       ⟨.g_internalVprev2, i, (wilsonIter dt I n s).Vprev2⟩,
       ⟨.g_spike_state, i, if 0 < (wilsonIter dt I n s).spike then 1 else 0⟩] ∧
    ((wilsonCompWrites dt I n s i).filter
      (fun e => decide (e.buf = GBuf.g_V))).length = 1 ∧
    ((wilsonCompWrites dt I n s i).filter
      (fun e => decide (e.buf = GBuf.g_spike_state))).length = 1 ∧
    (∀ e ∈ wilsonCompWrites dt I n s i, e.idx = i ∧ e.buf ≠ GBuf.g_I) ∧
    (wilsonUpdate num dt n b).I = b.I := by
  have htr : wilsonCompWrites dt I n s i =
      [⟨.g_V, i, (wilsonIter dt I n s).V⟩, ⟨.g_R, i, (wilsonIter dt I n s).R⟩,
       ⟨.g_internalV, i, (wilsonIter dt I n s).V⟩,
       ⟨.g_internalVprev1, i, (wilsonIter dt I n s).Vprev1⟩,
       ⟨.g_internalVprev2, i, (wilsonIter dt I n s).Vprev2⟩,
       ⟨.g_spike_state, i, if 0 < (wilsonIter dt I n s).spike then 1 else 0⟩] := by
    simp [wilsonCompWrites, wilsonLoopTrace_eq]
  refine ⟨htr, ?_, ?_, ?_, rfl⟩
  · rw [htr]; rfl
  · rw [htr]; rfl
  · rw [htr]
    intro e he
    simp only [List.mem_cons, List.not_mem_nil, or_false] at he
    rcases he with h | h | h | h | h | h <;> subst h <;> exact ⟨rfl, by simp⟩

/-- After at least one inner sub-step, the last history shift makes the
`Vprev1` register equal to the `V` register. -/
lemma wilsonIter_Vprev1_eq_V (dt I : ℚ) (n : ℕ) (s : WilsonLocals) (hn : 1 ≤ n) :
    (wilsonIter dt I n s).Vprev1 = (wilsonIter dt I n s).V := by
  obtain ⟨m, rfl⟩ : ∃ m, n = m + 1 := ⟨n - 1, by omega⟩
  rw [wilsonIter, Function.iterate_succ_apply']
  rfl

/-- Claim C9: for every component `i < num_comps` and any `nsteps ≥ 1`, the
kernel leaves the published voltage `g_V[i]`, the persistent voltage
`g_internalV[i]` and the history entry `g_internalVprev1[i]` all equal: the
published output mirrors the persistent state at the end of the round. -/
theorem wilson_publish_mirrors_internal (num : ℕ) (dt : ℚ) (nsteps : ℕ)
    (b : WilsonBufs) (i : ℕ) (hi : i < num) (hn : 1 ≤ nsteps) :
    (wilsonUpdate num dt nsteps b).V i = (wilsonUpdate num dt nsteps b).internalV i ∧
    (wilsonUpdate num dt nsteps b).internalV i
      = (wilsonUpdate num dt nsteps b).internalVprev1 i := by
  constructor
  · simp [wilsonUpdate, hi]
  · simp only [wilsonUpdate, if_pos hi]
    exact (wilsonIter_Vprev1_eq_V dt (b.I i) nsteps (loadLocals b i) hn).symm

/-- Claim C9, witness at one component, one sub-step, zero buffers. -/
theorem wilson_publish_mirrors_internal_witness :
    (0 : ℕ) < 1 ∧ (1 : ℕ) ≤ 1 ∧
    ((wilsonUpdate 1 1 1 zeroBufs).V 0 = (wilsonUpdate 1 1 1 zeroBufs).internalV 0 ∧
     (wilsonUpdate 1 1 1 zeroBufs).internalV 0
       = (wilsonUpdate 1 1 1 zeroBufs).internalVprev1 0) :=
  ⟨Nat.zero_lt_one, le_refl 1,
   wilson_publish_mirrors_internal 1 1 1 zeroBufs 0 Nat.zero_lt_one (le_refl 1)⟩

/-- The spike register after `n` inner sub-steps is positive exactly when it
started positive or some sub-step `j < n` satisfied the spike test. -/
lemma wilsonIter_spike_pos (dt I : ℚ) :
    ∀ (n : ℕ) (s : WilsonLocals),
      0 < (wilsonIter dt I n s).spike ↔
        0 < s.spike ∨ ∃ j < n, spikeCond dt I (wilsonIter dt I j s) := by
  intro n
  induction n with
  | zero => intro s; simp [wilsonIter]
  | succ n ih =>
      intro s
      simp only [wilsonIter] at ih ⊢
      rw [Function.iterate_succ_apply']
      have hspike : (wilsonSub dt I ((wilsonSub dt I)^[n] s)).spike
          = ((wilsonSub dt I)^[n] s).spike
            + if spikeCond dt I ((wilsonSub dt I)^[n] s) then 1 else 0 := rfl
      rw [hspike]
      by_cases hc : spikeCond dt I ((wilsonSub dt I)^[n] s)
      · simp only [if_pos hc]
        constructor
        · intro _
          exact Or.inr ⟨n, Nat.lt_succ_self n, hc⟩
        · intro _
          omega
      · simp only [if_neg hc, Nat.add_zero, ih s]
        constructor
        · rintro (h | ⟨j, hj, hcj⟩)
          · exact Or.inl h
          · exact Or.inr ⟨j, Nat.lt_succ_of_lt hj, hcj⟩
        · rintro (h | ⟨j, hj, hcj⟩)
          · exact Or.inl h
          · rcases Nat.lt_succ_iff_lt_or_eq.mp hj with hj' | rfl
            · exact Or.inr ⟨j, hj', hcj⟩
            · exact absurd hcj hc

/-- Claim C10: for every component `i < num_comps`, the kernel publishes
`g_spike_state[i]` as exactly 0 or 1, and it is 1 exactly when at least one
inner sub-step detected a local voltage maximum above 20
(`Vprev2 <= Vprev1 && Vprev1 >= V && Vprev1 > 20`); multiple within-round
detections collapse to the single published value 1. -/
theorem wilson_spike_binary_collapse (num : ℕ) (dt : ℚ) (nsteps : ℕ)
    (b : WilsonBufs) (i : ℕ) (hi : i < num) :
    ((wilsonUpdate num dt nsteps b).spike_state i = 0 ∨
     (wilsonUpdate num dt nsteps b).spike_state i = 1) ∧
    ((wilsonUpdate num dt nsteps b).spike_state i = 1 ↔
      ∃ j < nsteps, spikeCond dt (b.I i) (wilsonIter dt (b.I i) j (loadLocals b i))) := by
  have hval : (wilsonUpdate num dt nsteps b).spike_state i
      = if 0 < (wilsonIter dt (b.I i) nsteps (loadLocals b i)).spike then 1 else 0 := by
    simp [wilsonUpdate, hi]
  constructor
  · rw [hval]
    by_cases hp : 0 < (wilsonIter dt (b.I i) nsteps (loadLocals b i)).spike
    · exact Or.inr (if_pos hp)
    · exact Or.inl (if_neg hp)
  · rw [hval]
    have hiff := wilsonIter_spike_pos dt (b.I i) nsteps (loadLocals b i)
    have hload : (loadLocals b i).spike = 0 := rfl
    rw [hload] at hiff
    simp only [lt_irrefl, false_or] at hiff
    constructor
    · intro h1
      by_cases hp : 0 < (wilsonIter dt (b.I i) nsteps (loadLocals b i)).spike
      · exact hiff.mp hp
      · rw [if_neg hp] at h1; exact absurd h1 (by norm_num)
    · intro hex
      rw [if_pos (hiff.mpr hex)]

/-- Claim C10, witness: one component, one sub-step, zero buffers; the
published spike value is 0 or 1 and the characterisation holds. -/
theorem wilson_spike_binary_collapse_witness :
    (0 : ℕ) < 1 ∧
    (((wilsonUpdate 1 1 1 zeroBufs).spike_state 0 = 0 ∨
      (wilsonUpdate 1 1 1 zeroBufs).spike_state 0 = 1) ∧
     ((wilsonUpdate 1 1 1 zeroBufs).spike_state 0 = 1 ↔
       ∃ j < 1, spikeCond 1 (zeroBufs.I 0)
         (wilsonIter 1 (zeroBufs.I 0) j (loadLocals zeroBufs 0)))) :=
  ⟨Nat.zero_lt_one, wilson_spike_binary_collapse 1 1 1 zeroBufs 0 Nat.zero_lt_one⟩

/-- Claim C4: in `run_step`'s program order every `sum_in_variable`
reduction precedes the kernel launch, and the input buffer handed to the
kernel holds, at every component, the sum of that component's incoming
values. -/
theorem wilson_reduce_before_launch :
    (∀ a k, Wilson.runStepOps.get? a = some (.sumInVariable k) →
      ∀ l, Wilson.runStepOps.get? l = some .kernelLaunch → a < l) ∧
    (∀ (dt : ℚ) (num : ℕ) (incoming : ℕ → List ℚ) (b : WilsonBufs) (i : ℕ),
      (Wilson.runStepCall dt num incoming b).bufs.I i = (incoming i).sum) := by
  constructor
  · intro a k ha l hl
    have hops : Wilson.runStepOps
        = [.sumInVariable "I", .kernelLaunch] := rfl
    rw [hops] at ha hl
    rcases l with _ | _ | l
    · simp at hl
    · rcases a with _ | a
      · exact Nat.zero_lt_one
      · rcases a with _ | a <;> simp at ha
    · simp at hl
  · intro dt num incoming b i
    rfl

/-- Claim C4, witness: in the concrete operation list the reduction of `'I'`
sits at index 0 and the launch at index 1. -/
theorem wilson_reduce_before_launch_witness :
    Wilson.runStepOps.get? 0 = some (.sumInVariable "I") ∧
    Wilson.runStepOps.get? 1 = some .kernelLaunch ∧ (0 : ℕ) < 1 :=
  ⟨rfl, rfl, wilson_reduce_before_launch.1 0 "I" rfl 1 rfl⟩

/-- Claim C5: when `'initV'` is present in the parameter dict, `pre_run`
copies it into both the published `V` output buffer and the persistent
`internalV` state, touching nothing else; when `'initV'` is absent,
`pre_run` leaves every buffer unchanged. -/
theorem base_pre_run_initV (pd : List (String × PArray)) (m : ModelBufs) :
    (∀ a, dictGet pd "initV" = some a →
      (pre_run pd m).V_out = a ∧ (pre_run pd m).internalV = a ∧
      (pre_run pd m).spike_out = m.spike_out ∧
      (pre_run pd m).otherStates = m.otherStates) ∧
    (dictGet pd "initV" = none → pre_run pd m = m) := by
  constructor
  · intro a ha
    simp [pre_run, ha]
  · intro hn
    simp [pre_run, hn]

/-- Claim C5, witness: with a dict carrying `initV = [1, 2]`, `pre_run`
writes `[1, 2]` into the output and internal voltage buffers and leaves the
spike output untouched; with an empty dict it is the identity. -/
theorem base_pre_run_initV_witness :
    dictGet pdInit "initV" = some ⟨[1, 2]⟩ ∧
    ((pre_run pdInit mBufs0).V_out = ⟨[1, 2]⟩ ∧
     (pre_run pdInit mBufs0).internalV = ⟨[1, 2]⟩ ∧
     (pre_run pdInit mBufs0).spike_out = mBufs0.spike_out ∧
     (pre_run pdInit mBufs0).otherStates = mBufs0.otherStates) ∧
    (dictGet [] "initV" = none ∧ pre_run [] mBufs0 = mBufs0) :=
  ⟨by norm_num [dictGet, pdInit],
   (base_pre_run_initV pdInit mBufs0).1 ⟨[1, 2]⟩ (by norm_num [dictGet, pdInit]),
   rfl, (base_pre_run_initV [] mBufs0).2 rfl⟩

/-- When every key of the list is present in the dict, the dtype lookups of
line 49 all succeed. -/
lemma lookAll_ok (pd : List (String × PArray)) :
    ∀ l : List String, (∀ k ∈ l, (dictGet pd k).isSome) →
      lookAll pd l = .ok () := by
  intro l
  induction l with
  | nil => intro _; rfl
  | cons k ks ih =>
      intro h
      have hk := h k (List.mem_cons_self k ks)
      obtain ⟨a, ha⟩ := Option.isSome_iff_exists.mp hk
      simp only [lookAll, plookup, ha]
      exact ih fun k' hk' => h k' (List.mem_cons_of_mem k hk')

/-- When some key of the list is missing from the dict, the dtype lookups of
line 49 raise a `KeyError`. -/
lemma lookAll_error (pd : List (String × PArray)) :
    ∀ l : List String, ∀ k ∈ l, dictGet pd k = none →
      ∃ e, lookAll pd l = .error e := by
  intro l
  induction l with
  | nil => intro k hk; exact absurd hk (List.not_mem_nil k)
  | cons k' ks ih =>
      intro k hk hnone
      rcases List.mem_cons.mp hk with rfl | hk'
      · exact ⟨.keyError k, by simp only [lookAll, plookup, hnone]⟩
      · cases hfind : dictGet pd k' with
        | none => exact ⟨.keyError k', by simp only [lookAll, plookup, hfind]⟩
        | some a =>
            obtain ⟨e, he⟩ := ih k hk' hnone
            exact ⟨e, by simp only [lookAll, plookup, hfind]; exact he⟩

/-- Claim C7, counterexample: with declared parameters `['a', 'b']` and a
dict whose arrays have mismatched sizes 2 and 3, the constructor succeeds
(deriving `num_comps = 2` from the first parameter) and raises nothing: no
shape validation occurs, refuting "fails with a ConfigError whenever ... its
shape mismatches". -/
theorem base_init_shape_mismatch_cex :
    baseInit ["a", "b"] pdMismatch 1
      = .ok ⟨2, 1, BaseAxonHillockModel.steps 1⟩ ∧
    (dictGet pdMismatch "a").map PArray.size = some 2 ∧
    (dictGet pdMismatch "b").map PArray.size = some 3 ∧
    (2 : ℕ) ≠ 3 ∧
    ∀ e : PyErr, baseInit ["a", "b"] pdMismatch 1 ≠ .error e := by
  refine ⟨rfl, rfl, rfl, by norm_num, ?_⟩
  intro e h
  rw [show baseInit ["a", "b"] pdMismatch 1
      = .ok ⟨2, 1, BaseAxonHillockModel.steps 1⟩ from rfl] at h
  exact Except.noConfusion h

/-- Claim C7, amended: the constructor derives the instance count from the
size of the first declared parameter's array and raises a `KeyError` (before
any round executes) when any declared parameter is absent from the supplied
dict; it performs no shape validation, so construction succeeds whenever all
declared parameters are present, mismatched shapes included. -/
theorem base_init_behavior (p : String) (ps : List String)
    (pd : List (String × PArray)) (dt : ℚ) :
    (∀ st, baseInit (p :: ps) pd dt = .ok st →
      ∃ a, dictGet pd p = some a ∧ st.num_comps = a.size ∧
        st.steps = BaseAxonHillockModel.steps dt) ∧
    (∀ k ∈ p :: ps, dictGet pd k = none →
      ∃ e, baseInit (p :: ps) pd dt = .error e) ∧
    ((∀ k ∈ p :: ps, (dictGet pd k).isSome) →
      baseInit (p :: ps) pd dt
        = .ok ⟨((dictGet pd p).map PArray.size).getD 0, dt,
               BaseAxonHillockModel.steps dt⟩) := by
  refine ⟨?_, ?_, ?_⟩
  · intro st hst
    cases hp : dictGet pd p with
    | none =>
        simp only [baseInit, List.head?_cons, plookup, hp] at hst
        exact Except.noConfusion hst
    | some a =>
        refine ⟨a, rfl, ?_⟩
        simp only [baseInit, List.head?_cons, plookup, hp] at hst
        cases hl : lookAll pd (p :: ps) with
        | error e => rw [hl] at hst; simp at hst
        | ok u =>
            rw [hl] at hst
            cases u
            simp only [Except.ok.injEq] at hst
            simp [← hst, PArray.size]
  · intro k hk hnone
    cases hp : dictGet pd p with
    | none =>
        exact ⟨.keyError p, by simp only [baseInit, List.head?_cons, plookup, hp]⟩
    | some a =>
        obtain ⟨e, he⟩ := lookAll_error pd (p :: ps) k hk hnone
        exact ⟨e, by simp only [baseInit, List.head?_cons, plookup, hp, he]⟩
  · intro hall
    have hp := hall p (List.mem_cons_self p ps)
    obtain ⟨a, ha⟩ := Option.isSome_iff_exists.mp hp
    simp [baseInit, plookup, ha, lookAll_ok pd (p :: ps) hall, PArray.size]

/-- Claim C7 amended, witness: on the mismatched-shape dict, all parameters
are present, so construction succeeds with `num_comps = 2` taken from the
first parameter's array. -/
theorem base_init_behavior_witness :
    (∀ k ∈ ["a", "b"], (dictGet pdMismatch k).isSome) ∧
    baseInit ["a", "b"] pdMismatch 1
      = .ok ⟨((dictGet pdMismatch "a").map PArray.size).getD 0, 1,
             BaseAxonHillockModel.steps 1⟩ :=
  ⟨by intro k hk; fin_cases hk <;> rfl,
   (base_init_behavior "a" ["b"] pdMismatch 1).2.2
     (by intro k hk; fin_cases hk <;> rfl)⟩

end NeuroDriver
